import Mathlib

/-!
Verification of the Sprinkles sprinkler-controller repository.

Shallow embedding of the Scheduling & Persistence Core of the two
revisions in the repository:
  - `src/Sprinkles.ino` (version 1.3, the newer revision), and
  - `src/sprinkler_controller.ino` (version 1.0).

The embedding keeps the source's identifiers where possible.  Machine
integers are modelled as `Nat` with explicit `% 2^32` where `time_t`
(32-bit unsigned on AVR) overflow matters.  Ambient inputs of the
firmware (the clock value `myTZ.toLocal(now())`, the received NTP
datagram, parsed URL parameters) are passed as explicit arguments.
-/

/-- Constant from Time.h: seconds per minute. -/
def SECS_PER_MIN : Nat := 60

/-- Constant from Time.h: seconds per day. -/
def SECS_PER_DAY : Nat := 86400

/-- Number of watering zones (`const byte NUM_ZONES = 4` in both revisions). -/
def NUM_ZONES : Nat := 4

/-- Modulus of the 32-bit unsigned `time_t` / `unsigned long` used on AVR. -/
def U32 : Nat := 4294967296

/-- Time.h weekday: `((t / SECS_PER_DAY + 4) % 7) + 1`, Sunday is day 1. -/
def weekday (t : Nat) : Nat := (t / 86400 + 4) % 7 + 1

/-- Time.h previousMidnight: `(t / SECS_PER_DAY) * SECS_PER_DAY`. -/
def previousMidnight (t : Nat) : Nat := t / 86400 * 86400

/-!
Zone controller (`zoneOn` / `zoneOff` / `allZonesOff`, Sprinkles.ino
lines 277-304, sprinkler_controller.ino lines 253-278).  The mutable
state is the vector of `WaterZone.on` flags of `gZoneList`; pins and
names are irrelevant to the claims.  `digitalWrite`, `delay` and the
log append have no effect on the `on` flags and are dropped.
-/

/-- Source `zoneOff(zone)`: if the zone is on, clear its `on` flag (and log);
otherwise do nothing. -/
def zoneOff (z : Fin 4) (s : Fin 4 → Bool) : Fin 4 → Bool :=
  if s z then (fun i => if i = z then false else s i) else s

/-- Source `allZonesOff()` and the identical inline loop in `zoneOn`:
`for (i = 0; i < NUM_ZONES; i++) zoneOff(i)`. -/
def allZonesOff (s : Fin 4 → Bool) : Fin 4 → Bool :=
  ([0, 1, 2, 3] : List (Fin 4)).foldl (fun st i => zoneOff i st) s

/-- Source `zoneOn(zone)`: no-op if the zone is already on; otherwise turn
every zone off first, then set the requested zone's `on` flag. -/
def zoneOn (z : Fin 4) (s : Fin 4 → Bool) : Fin 4 → Bool :=
  if s z then s else (fun i => if i = z then true else allZonesOff s i)

/-- External command stream driving the zone controller: each element is a
`zoneOn` or `zoneOff` call with an in-range zone argument. -/
inductive ZoneCmd where
  | turnOn : Fin 4 → ZoneCmd
  | turnOff : Fin 4 → ZoneCmd

/-- Execute a sequence of `zoneOn`/`zoneOff` calls from a given state. -/
def runCmds (cmds : List ZoneCmd) (s : Fin 4 → Bool) : Fin 4 → Bool :=
  cmds.foldl (fun st c => match c with
    | ZoneCmd.turnOn z => zoneOn z st
    | ZoneCmd.turnOff z => zoneOff z st) s

/-- Initial state of `gZoneList`: every zone's `on` flag is `false`. -/
def initZones : Fin 4 → Bool := fun _ => false

/-- At most one zone reports `on == true`. -/
def AtMostOneOn (s : Fin 4 → Bool) : Prop :=
  ∀ i j : Fin 4, s i = true → s j = true → i = j

theorem zoneOff_apply (z : Fin 4) (s : Fin 4 → Bool) (i : Fin 4) :
    zoneOff z s i = if i = z then false else s i := by
  by_cases h : s z
  · simp [zoneOff, h]
  · by_cases hiz : i = z
    · simp only [Bool.not_eq_true] at h
      simp [zoneOff, h, hiz]
    · simp [zoneOff, h, hiz]

theorem allZonesOff_apply (s : Fin 4 → Bool) (i : Fin 4) :
    allZonesOff s i = false := by
  fin_cases i <;>
    simp [allZonesOff, List.foldl, zoneOff_apply]

theorem zoneOn_apply (z : Fin 4) (s : Fin 4 → Bool) (i : Fin 4) :
    zoneOn z s i = if s z then s i else (if i = z then true else false) := by
  by_cases h : s z
  · simp [zoneOn, h]
  · simp only [Bool.not_eq_true] at h
    by_cases hiz : i = z <;> simp [zoneOn, h, hiz, allZonesOff_apply]

theorem atMostOneOn_zoneOn (z : Fin 4) (s : Fin 4 → Bool)
    (h : AtMostOneOn s) : AtMostOneOn (zoneOn z s) := by
  intro i j hi hj
  rw [zoneOn_apply] at hi hj
  by_cases hz : s z
  · simp only [hz, if_true] at hi hj
    exact h i j hi hj
  · simp only [hz, if_false] at hi hj
    by_cases hiz : i = z
    · by_cases hjz : j = z
      · rw [hiz, hjz]
      · simp [hjz] at hj
    · simp [hiz] at hi

theorem atMostOneOn_zoneOff (z : Fin 4) (s : Fin 4 → Bool)
    (h : AtMostOneOn s) : AtMostOneOn (zoneOff z s) := by
  intro i j hi hj
  rw [zoneOff_apply] at hi hj
  by_cases hiz : i = z
  · simp [hiz] at hi
  · by_cases hjz : j = z
    · simp [hjz] at hj
    · simp only [hiz, hjz, if_false] at hi hj
      exact h i j hi hj

theorem atMostOneOn_runCmds (cmds : List ZoneCmd) (s : Fin 4 → Bool)
    (h : AtMostOneOn s) : AtMostOneOn (runCmds cmds s) := by
  induction cmds generalizing s with
  | nil => exact h
  | cons c rest ih =>
    cases c with
    | turnOn z => exact ih (zoneOn z s) (atMostOneOn_zoneOn z s h)
    | turnOff z => exact ih (zoneOff z s) (atMostOneOn_zoneOff z s h)

/-- C1: for every sequence of `zoneOn`/`zoneOff` calls with in-range zone
arguments, at every point at most one zone has its `on` flag set; moreover
`zoneOn z` leaves every zone other than `z` off (it turns the others off
before energizing `z`) and leaves zone `z` energized. -/
theorem c1_mutual_exclusion :
    (∀ cmds : List ZoneCmd, AtMostOneOn (runCmds cmds initZones)) ∧
    (∀ (s : Fin 4 → Bool) (z : Fin 4), AtMostOneOn s →
      ∀ i : Fin 4, i ≠ z → zoneOn z s i = false) ∧
    (∀ (s : Fin 4 → Bool) (z : Fin 4), zoneOn z s z = true) := by
  refine ⟨?_, ?_, ?_⟩
  · intro cmds
    apply atMostOneOn_runCmds
    intro i j hi _
    simp [initZones] at hi
  · intro s z h i hiz
    rw [zoneOn_apply]
    by_cases hz : s z
    · simp only [hz, if_true]
      cases hsi : s i with
      | false => rfl
      | true => exact absurd (h i z hsi hz) hiz
    · simp [hz, hiz]
  · intro s z
    rw [zoneOn_apply]
    by_cases hz : s z
    · simp [hz]
    · simp [hz]

/-- Example intermediate state with exactly zone 0 energized. -/
def exState : Fin 4 → Bool := fun i => decide (i = 0)

/-- Witness for C1 at concrete inputs. -/
theorem c1_witness :
    AtMostOneOn (runCmds [ZoneCmd.turnOn 0, ZoneCmd.turnOn 2, ZoneCmd.turnOff 2] initZones) ∧
    (AtMostOneOn exState ∧ zoneOn 1 exState 0 = false) ∧
    zoneOn 1 exState 1 = true := by
  refine ⟨c1_mutual_exclusion.1 _, ⟨?_, ?_⟩, c1_mutual_exclusion.2.2 exState 1⟩
  · intro i j hi hj
    fin_cases i <;> fin_cases j <;> simp_all [exState]
  · refine c1_mutual_exclusion.2.1 exState 1 ?_ 0 (by decide)
    intro i j hi hj
    fin_cases i <;> fin_cases j <;> simp_all [exState]

/-!
Schedule engine (`Schedule::build` / `activeZone` / `nextEventStart` /
`isStale`, Sprinkles.ino lines 194-268; `Schedule::build` / `activeZone` /
`nextRun`, sprinkler_controller.ino lines 185-248).  `NUM_SCHED_EVENTS`
is 1 in both revisions, so the `eventList` array is a single `Event`.
The two unbounded `while` loops of `build` are embedded with explicit
fuel arguments (`fa` for the advance-to-future loop, `ff` for the
day-scan loop); `none` means the fuel ran out, i.e. the corresponding
source loop did not terminate within that many iterations.  All
`time_t` additions reduce modulo `U32`.
-/

/-- Configuration record `WaterCycle` (identical in both revisions). -/
structure WaterCycle where
  startTime : Nat
  zone_duration : List Nat
  activeDays : Nat
  enabled : Bool
deriving DecidableEq

/-- Compiled schedule entry `Event` (identical in both revisions). -/
structure Event where
  startTime : Nat
  zoneStopTime : List Nat
deriving DecidableEq

/-- The event produced by `memset(eventList, 0, sizeof(eventList))`:
all timestamps zero.  This is what an "empty" compiled schedule holds. -/
def zeroEvent : Event := ⟨0, [0, 0, 0, 0]⟩

/-- Inner `for (j = 0; j < NUM_ZONES; j++)` of `build`: successive zone stop
times, each zone's window starting where the previous one stopped. -/
def mkStops : Nat → List Nat → List Nat
  | _, [] => []
  | t, d :: ds =>
    let s := (t + d * 60) % U32
    s :: mkStops s ds

/-- The event `build` emits for an accepted candidate day `e`. -/
def mkEvent (c : WaterCycle) (e : Nat) : Event :=
  ⟨e, mkStops e c.zone_duration⟩

/-- First `while` loop of `build`: `while (eventStart < localTime)
eventStart += SECS_PER_DAY;` with fuel `fa`. -/
def advanceLoop : Nat → Nat → Nat → Option Nat
  | 0, e, t => if e < t then none else some e
  | f + 1, e, t => if e < t then advanceLoop f ((e + 86400) % U32) t else some e

/-- Second `while` loop of `build` for `NUM_SCHED_EVENTS = 1`: scan candidate
days one at a time; accept the first whose weekday bit is set in
`activeDays` (`cycle->activeDays & (1 << weekday(eventStart))`); the
source loop has no iteration bound, so fuel `ff` models its progress. -/
def fillLoop : Nat → WaterCycle → Nat → Option Event
  | 0, _, _ => none
  | f + 1, c, e =>
    if c.activeDays.testBit (weekday e) then some (mkEvent c e)
    else fillLoop f c ((e + 86400) % U32)

/-- Sprinkles.ino (v1.3) `Schedule::build`: clear the schedule; if the cycle
is enabled and at least one day bit is set, find the first cycle start time
not before `localTime` and fill the (single-slot) event list. -/
def Schedule.build (fa ff : Nat) (c : WaterCycle) (localTime : Nat) : Option Event :=
  if c.enabled = true ∧ c.activeDays ≠ 0 then
    (advanceLoop fa ((previousMidnight localTime + c.startTime * 60) % U32) localTime).bind
      (fillLoop ff c)
  else some zeroEvent

/-- sprinkler_controller.ino (v1.0) `Schedule::build`: identical loops, but
the guard tests only `cycle->activeDays != 0` (the `enabled` flag is not
consulted when compiling). -/
def SprinklerController.build (fa ff : Nat) (c : WaterCycle) (localTime : Nat) : Option Event :=
  if c.activeDays ≠ 0 then
    (advanceLoop fa ((previousMidnight localTime + c.startTime * 60) % U32) localTime).bind
      (fillLoop ff c)
  else some zeroEvent

/-- Sprinkles.ino `Schedule::activeZone`: for the single event, if
`localTime >= startTime`, return the first zone index whose stop time is
still in the future; otherwise (and on fall-through) return -1, modelled
as `none`. -/
def Schedule.activeZone (ev : Event) (localTime : Nat) : Option Nat :=
  if ev.startTime ≤ localTime then
    ev.zoneStopTime.findIdx? (fun s => localTime < s)
  else none

/-- Sprinkles.ino `Schedule::nextEventStart(curTime)`: returns
`eventList[0].startTime` when it is strictly in the future.  When no event
start is in the future, control falls off the end of the function without
executing any `return` statement; `none` models that missing-return path. -/
def Schedule.nextEventStart (ev : Event) (curTime : Nat) : Option Nat :=
  if curTime < ev.startTime then some ev.startTime else none

/-- sprinkler_controller.ino `Schedule::nextRun`: unconditionally returns
`eventList[0].startTime`. -/
def SprinklerController.nextRun (ev : Event) : Nat := ev.startTime

/-- Sprinkles.ino `Schedule::isStale`: true iff `localTime` is strictly past
`eventList[NUM_SCHED_EVENTS-1].zoneStopTime[NUM_ZONES-1]`. -/
def Schedule.isStale (ev : Event) (localTime : Nat) : Bool :=
  if ev.zoneStopTime.getD 3 0 < localTime then true else false

theorem advanceLoop_ge (fa e t : Nat) (h : t ≤ e) : advanceLoop fa e t = some e := by
  cases fa <;> simp [advanceLoop, Nat.not_lt.mpr h]

theorem fillLoop_hit (f : Nat) (c : WaterCycle) (e : Nat)
    (h : c.activeDays.testBit (weekday e) = true) :
    fillLoop (f + 1) c e = some (mkEvent c e) := by
  simp [fillLoop, h]

/-- Bit 0 of a day mask is never consulted: `weekday` only returns 1..7. -/
theorem testBit_one_weekday (e : Nat) : Nat.testBit 1 (weekday e) = false := by
  rw [Nat.testBit_to_div_mod]
  have h1 : (1 : Nat) / 2 ^ weekday e = 0 := by
    apply Nat.div_eq_of_lt
    exact Nat.one_lt_two_pow (by simp [weekday])
  simp [h1]

theorem fillLoop_mask_one (c : WaterCycle) (hc : c.activeDays = 1) :
    ∀ (f e : Nat), fillLoop f c e = none := by
  intro f
  induction f with
  | zero => intro e; rfl
  | succ f ih =>
    intro e
    rw [fillLoop, hc, testBit_one_weekday]
    simpa using ih ((e + 86400) % U32)

/-- Cycle with the corrupt day mask `0b00000001`: nonzero, but its only set
bit (bit 0) can never match a weekday, since `weekday` returns 1..7. -/
def cycleBad : WaterCycle := ⟨0, [10, 10, 10, 10], 1, true⟩

/-- C3: the claim asserts `build` terminates on every nonzero day mask
because of a safety day-count bound, but neither revision has any such
bound.  With `activeDaysMask = 0x01` the day-scan loop never accepts a
candidate day (it never makes progress, for any amount of fuel), so
`Schedule::build` does not terminate: the code contradicts the claim. -/
theorem c3_build_diverges :
    (∀ f e : Nat, fillLoop f cycleBad e = none) ∧
    (∀ fa ff : Nat, Schedule.build fa ff cycleBad 0 = none) ∧
    (∀ fa ff : Nat, SprinklerController.build fa ff cycleBad 0 = none) := by
  have hfill := fillLoop_mask_one cycleBad rfl
  refine ⟨hfill, ?_, ?_⟩
  · intro fa ff
    rw [Schedule.build]
    have hguard : cycleBad.enabled = true ∧ cycleBad.activeDays ≠ 0 := by decide
    rw [if_pos hguard]
    rw [advanceLoop_ge fa _ 0 (Nat.zero_le _)]
    simpa using hfill ff _
  · intro fa ff
    rw [SprinklerController.build]
    have hguard : cycleBad.activeDays ≠ 0 := by decide
    rw [if_pos hguard]
    rw [advanceLoop_ge fa _ 0 (Nat.zero_le _)]
    simpa using hfill ff _

/-- A disabled cycle with a valid day mask (day bit 1 = Sunday). -/
def cycleDis : WaterCycle := ⟨360, [10, 10, 10, 10], 2, false⟩

/-- Fixed query time for the schedule claims: 1000000000 seconds
(a Sunday, 01:46:40 into the local day). -/
def t5 : Nat := 1000000000

/-- C4 counterexample: in the v1.0 revision the claim fails.  With
`enabled == false` but a nonzero day mask, `Schedule::build` of
sprinkler_controller.ino fills an event (only the v1.3 revision also
requires `enabled`), so the compiled sequence is not left empty. -/
theorem c4_counterexample :
    SprinklerController.build 0 1 cycleDis t5 = some (mkEvent cycleDis 1000015200) ∧
    mkEvent cycleDis 1000015200 ≠ zeroEvent := by
  constructor
  · decide
  · decide

/-- C4 amended: in the v1.3 revision (Sprinkles.ino), `enabled == false` or
`activeDaysMask == 0` leaves the compiled sequence cleared and empty; in
the v1.0 revision (sprinkler_controller.ino) only `activeDaysMask == 0`
does (the `enabled` flag is instead checked at `activeZone` query time). -/
theorem c4_empty_schedule :
    (∀ (fa ff : Nat) (c : WaterCycle) (t : Nat),
      c.enabled = false ∨ c.activeDays = 0 →
      Schedule.build fa ff c t = some zeroEvent) ∧
    (∀ (fa ff : Nat) (c : WaterCycle) (t : Nat),
      c.activeDays = 0 →
      SprinklerController.build fa ff c t = some zeroEvent) := by
  constructor
  · intro fa ff c t h
    rw [Schedule.build, if_neg]
    rintro ⟨h1, h2⟩
    cases h with
    | inl h => rw [h1] at h; exact Bool.noConfusion h
    | inr h => exact h2 h
  · intro fa ff c t h
    rw [SprinklerController.build, if_neg]
    simpa using h

/-- Witness for C4 at concrete inputs. -/
theorem c4_witness :
    (cycleDis.enabled = false ∨ cycleDis.activeDays = 0) ∧
    Schedule.build 0 1 cycleDis t5 = some zeroEvent ∧
    SprinklerController.build 0 1 ⟨360, [10, 10, 10, 10], 0, true⟩ t5 = some zeroEvent :=
  ⟨Or.inl rfl, c4_empty_schedule.1 0 1 cycleDis t5 (Or.inl rfl),
    c4_empty_schedule.2 0 1 ⟨360, [10, 10, 10, 10], 0, true⟩ t5 rfl⟩

/-- The cycle fixed by the schedule-determinism claim: start at minute 360
(6:00 AM), four 10-minute zones, day mask `0b0000010`, enabled. -/
def cycle5 : WaterCycle := ⟨360, [10, 10, 10, 10], 2, true⟩

/-- C5: at the fixed time `t5`, `build` compiles `cycle5` (for any fuel
amounts: both loops exit at their first test) to the single event starting
at 1000015200, which is the next occurrence of the masked weekday at
minute 360 of the local day (first minute-360 instant not before `t5`,
weekday bit set), and the last zone's stop time is 40 minutes after the
start. -/
theorem c5_schedule_determinism (fa ff : Nat) :
    Schedule.build fa (ff + 1) cycle5 t5 = some (mkEvent cycle5 1000015200) ∧
    (mkEvent cycle5 1000015200).startTime = 1000015200 ∧
    (mkEvent cycle5 1000015200).zoneStopTime.getD 3 0 -
      (mkEvent cycle5 1000015200).startTime = 40 * 60 ∧
    1000015200 % 86400 = 360 * 60 ∧
    cycle5.activeDays.testBit (weekday 1000015200) = true ∧
    t5 ≤ 1000015200 ∧
    (∀ u : Nat, t5 ≤ u → u % 86400 = 360 * 60 → 1000015200 ≤ u) := by
  refine ⟨?_, by decide, by decide, by decide, by decide, by decide, ?_⟩
  · rw [Schedule.build, if_pos (by decide : cycle5.enabled = true ∧ cycle5.activeDays ≠ 0)]
    have harg : (previousMidnight t5 + cycle5.startTime * 60) % U32 = 1000015200 := by decide
    rw [harg, advanceLoop_ge fa 1000015200 t5 (by decide), Option.some_bind]
    exact fillLoop_hit ff cycle5 1000015200 (by decide)
  · intro u h1 h2
    simp only [t5] at h1
    omega

/-- Witness for C5 at concrete inputs (fuel 0/0, and the minimality part
applied to the next minute-360 instant, one day later). -/
theorem c5_witness :
    Schedule.build 0 1 cycle5 t5 = some (mkEvent cycle5 1000015200) ∧
    (t5 ≤ 1000101600 ∧ 1000101600 % 86400 = 360 * 60 ∧ 1000015200 ≤ 1000101600) :=
  ⟨(c5_schedule_determinism 0 0).1,
    by decide, by decide,
    (c5_schedule_determinism 0 0).2.2.2.2.2.2 1000101600 (by decide) (by decide)⟩

/-- Local time corresponding to the time-unknown sentinel: when sync has
never succeeded the Time library timestamp is 0 and
`myTZ.toLocal(0) = 0 - 480*60` under the PST rule, which in 32-bit
`time_t` arithmetic is `2^32 - 28800`. -/
def tUnknown : Nat := 4294938496

/-- An enabled cycle whose start minute (1380 = 11:00 PM) and day mask
(bit 7 = Saturday) match the degenerate local day of `tUnknown`. -/
def cycle7 : WaterCycle := ⟨1380, [10, 10, 10, 10], 128, true⟩

/-- C7: the claim says compilation and active-zone queries short-circuit to
"no active event" while the time base is unknown, but neither `build` nor
`activeZone` tests the sentinel at all: at the local time derived from
timestamp 0, `build` fills a (non-empty) event anchored to the wrapped
1970 epoch, and `activeZone` then reports zone 0 active at that event's
start instant. -/
theorem c7_no_short_circuit :
    Schedule.build 0 1 cycle7 tUnknown = some (mkEvent cycle7 4294940400) ∧
    mkEvent cycle7 4294940400 ≠ zeroEvent ∧
    Schedule.activeZone (mkEvent cycle7 4294940400) 4294940400 = some 0 := by
  refine ⟨?_, by decide, by decide⟩
  decide

/-- C8: `isStale` is false at any instant not past the compiled event's
last zone stop time — in particular immediately after `build` whenever the
compile-time instant precedes the (non-wrapping) compiled window — and
becomes true exactly once the local time passes the last zone's stop. -/
theorem c8_staleness :
    (∀ (fa ff : Nat) (c : WaterCycle) (t : Nat) (ev : Event),
      Schedule.build fa ff c t = some ev →
      t ≤ ev.zoneStopTime.getD 3 0 →
      Schedule.isStale ev t = false) ∧
    (∀ (ev : Event) (u : Nat),
      ev.zoneStopTime.getD 3 0 < u → Schedule.isStale ev u = true) := by
  constructor
  · intro fa ff c t ev _ hle
    rw [Schedule.isStale, if_neg (Nat.not_lt.mpr hle)]
  · intro ev u hlt
    rw [Schedule.isStale, if_pos hlt]

/-- Witness for C8: the cycle5 schedule compiled at `t5` is not stale at
`t5` and is stale one second past its last stop time (1000017600). -/
theorem c8_witness :
    Schedule.build 0 1 cycle5 t5 = some (mkEvent cycle5 1000015200) ∧
    t5 ≤ (mkEvent cycle5 1000015200).zoneStopTime.getD 3 0 ∧
    Schedule.isStale (mkEvent cycle5 1000015200) t5 = false ∧
    Schedule.isStale (mkEvent cycle5 1000015200) 1000017601 = true := by
  have hb : Schedule.build 0 1 cycle5 t5 = some (mkEvent cycle5 1000015200) := by decide
  exact ⟨hb, by decide,
    c8_staleness.1 0 1 cycle5 t5 (mkEvent cycle5 1000015200) hb (by decide),
    c8_staleness.2 (mkEvent cycle5 1000015200) 1000017601 (by decide)⟩

/-- C9: the claim says `nextEventStart` always returns a defined value
(none / the sentinel when no event start is in the future), but whenever
the single compiled event's start is not strictly in the future — e.g. for
the cleared, empty schedule, whose `startTime` is 0, at every query time —
the function body executes no `return` statement at all (undefined
behavior in the C++ source), modelled here by the fall-off value `none`. -/
theorem c9_missing_return :
    ∀ curTime : Nat, Schedule.nextEventStart zeroEvent curTime = none := by
  intro curTime
  rw [Schedule.nextEventStart, if_neg]
  exact Nat.not_lt_zero curTime

/-!
NTP client (`getNTPtime`, Sprinkles.ino lines 778-811,
sprinkler_controller.ino lines 676-709; identical in both revisions).
The network exchange is modelled by its observable outcome: either a
48-byte reply arrived within the 1.5 s wait window (`some pkt`) or the
wait timed out (`none`).  Arithmetic is the source's 32-bit unsigned
`unsigned long` arithmetic.
-/

/-- Arduino `word(h, l)`: combine two bytes into a 16-bit value. -/
def word16 (h l : Nat) : Nat := h * 256 + l

/-- Big-endian 32-bit seconds-since-1900 field at bytes 40-43 of the reply,
exactly as the source assembles it: `word(p[40],p[41]) << 16 | word(p[42],p[43])`. -/
def be32 (pkt : Fin 48 → Fin 256) : Nat :=
  word16 (pkt 40).val (pkt 41).val <<< 16 ||| word16 (pkt 42).val (pkt 43).val

/-- Source `getNTPtime()`: on a received 48-byte reply, extract the
seconds-since-1900 field and return it minus `2208988800UL` in 32-bit
unsigned arithmetic; on timeout return 0. -/
def getNTPtime (reply : Option (Fin 48 → Fin 256)) : Nat :=
  match reply with
  | none => 0
  | some pkt =>
    let highWord := word16 (pkt 40).val (pkt 41).val
    let lowWord := word16 (pkt 42).val (pkt 43).val
    let secsSince1900 := highWord <<< 16 ||| lowWord
    (secsSince1900 + U32 - 2208988800) % U32

theorem be32_lt (pkt : Fin 48 → Fin 256) : be32 pkt < U32 := by
  have h1 : word16 (pkt 40).val (pkt 41).val < 65536 := by
    have := (pkt 40).isLt
    have := (pkt 41).isLt
    simp only [word16]
    omega
  have h2 : word16 (pkt 42).val (pkt 43).val < 65536 := by
    have := (pkt 42).isLt
    have := (pkt 43).isLt
    simp only [word16]
    omega
  have h3 : word16 (pkt 40).val (pkt 41).val <<< 16 < 2 ^ 32 := by
    rw [Nat.shiftLeft_eq]
    omega
  have h4 : word16 (pkt 42).val (pkt 43).val < 2 ^ 32 := by omega
  have := Nat.or_lt_two_pow (n := 32) h3 h4
  simpa [U32] using this

/-- C6: for every reply received within the wait window, `getNTPtime`
returns the big-endian 32-bit value at bytes 40-43 minus 2208988800 in
32-bit unsigned arithmetic — in plain subtraction whenever that field is
at least 2208988800 (i.e. a timestamp in or after 1970) — and when no
reply arrives within the timeout it returns the failure sentinel 0. -/
theorem c6_ntp_parse :
    (∀ pkt : Fin 48 → Fin 256,
      getNTPtime (some pkt) = (be32 pkt + U32 - 2208988800) % U32) ∧
    (∀ pkt : Fin 48 → Fin 256, 2208988800 ≤ be32 pkt →
      getNTPtime (some pkt) = be32 pkt - 2208988800) ∧
    getNTPtime none = 0 := by
  refine ⟨fun pkt => rfl, ?_, rfl⟩
  intro pkt h
  have hlt := be32_lt pkt
  show (be32 pkt + U32 - 2208988800) % U32 = be32 pkt - 2208988800
  simp only [U32] at hlt ⊢
  omega

/-- Canned NTP reply whose seconds-since-1900 field is
`0xE93C7F00 = 3913056000`, i.e. seconds-since-1970 value 1704067200. -/
def pktEx : Fin 48 → Fin 256 := fun i =>
  if i = 40 then 233 else if i = 41 then 60 else if i = 42 then 127 else 0

/-- Witness for C6 at a concrete canned reply. -/
theorem c6_witness :
    2208988800 ≤ be32 pktEx ∧ getNTPtime (some pktEx) = 1704067200 := by
  refine ⟨by decide, ?_⟩
  rw [c6_ntp_parse.2.1 pktEx (by decide)]
  decide

/-!
Manual-command handler (`manualCmd`, Sprinkles.ino lines 559-583,
sprinkler_controller.ino lines 482-506; identical logic).  The handler
parses one URL parameter; when the parameter name begins with the letter
Z it computes `int zone = pName[1] - '0'` and passes it to
`zoneOn`/`zoneOff` (depending on the value being ON or OFF) with no
bounds check.  The parameter name is modelled as its character list. -/

/-- The zone index `manualCmd` computes from a parameter name:
`pName[1] - '0'` as a C `int`. -/
def manualZoneArg (pName : List Char) : Int :=
  ((pName.getD 1 ' ').toNat : Int) - (('0').toNat : Int)

/-- The zone index `manualCmd` passes to `zoneOn`/`zoneOff`, if any: the
handler acts only when `pName[0] == 'Z'`. -/
def manualCmdZone (pName : List Char) : Option Int :=
  if pName.getD 0 ' ' = 'Z' then some (manualZoneArg pName) else none

/-- C10 counterexample: the handler accepts the parameter name `Z7` and
passes zone index 7 to `zoneOn`/`zoneOff`, which is not less than
`NUM_ZONES = 4`, so `gZoneList[7]` is an out-of-bounds access. -/
theorem c10_counterexample :
    manualCmdZone ['Z', '7'] = some 7 ∧ ¬((7 : Int) < (NUM_ZONES : Int)) := by
  constructor
  · decide
  · decide

/-- C10 amended: the zone index the manual-command handler passes to
`zoneOn`/`zoneOff` is in bounds (less than `NUM_ZONES`) exactly for the
parameter names `Z0`..`Z3` that the UI generates; the handler also
accepts `Z4`..`Z9`, whose indices 4..9 are out of bounds. -/
theorem c10_amended :
    ∀ d : Char, 48 ≤ d.toNat → d.toNat ≤ 51 →
      ∃ z : Int, manualCmdZone ['Z', d] = some z ∧ 0 ≤ z ∧ z < (NUM_ZONES : Int) := by
  intro d h1 h2
  have hget : (['Z', d].getD 1 ' ') = d := rfl
  have h0 : ('0').toNat = 48 := rfl
  have h4 : ((NUM_ZONES : Nat) : Int) = 4 := rfl
  refine ⟨manualZoneArg ['Z', d], ?_, ?_, ?_⟩
  · simp [manualCmdZone]
  · simp only [manualZoneArg, hget, h0]
    omega
  · simp only [manualZoneArg, hget, h0, h4]
    omega

/-- Witness for C10 at the concrete parameter name `Z2`. -/
theorem c10_witness :
    (48 ≤ ('2').toNat ∧ ('2').toNat ≤ 51) ∧
    ∃ z : Int, manualCmdZone ['Z', '2'] = some z ∧ 0 ≤ z ∧ z < (NUM_ZONES : Int) :=
  ⟨⟨by decide, by decide⟩, c10_amended '2' (by decide) (by decide)⟩

/-!
Activity log (`ZoneLog`, Sprinkles.ino lines 49-176,
sprinkler_controller.ino lines 46-167; identical logic).  The log is a
ring of `ZONE_LOG_LENGTH = (NUM_ZONES * 2 * 3) + 1 = 25` fixed-size
elements in EEPROM.  On AVR `sizeof(time_t) = 4`, `sizeof(byte) = 1`,
`sizeof(boolean) = 1`, so `ZONE_LOG_ELEM_SIZE = 6`; with
`EEADDR_ZONE_LOG_BASE = 100` and `sizeof(int) = 2` the ring occupies
byte addresses 104..253.  EEPROM is modelled as a map from the
element-aligned byte address to the stored record: `add` writes the
three fields consecutively at `head`, and `dumpHTML` reads them back at
the same offsets, so grouping each triple of `put`/`get` calls at its
element base address is behavior-preserving.  The `head`/`tail`
mirror copies at addresses 100/102 always equal the in-RAM fields and
are dropped.
-/

/-- EEPROM base address of the log region (`EEADDR_ZONE_LOG_BASE`). -/
def EEADDR_ZONE_LOG_BASE : Nat := 100

/-- Number of ring elements (`(NUM_ZONES * 2 * 3) + 1`). -/
def ZONE_LOG_LENGTH : Nat := 25

/-- Bytes per ring element (`sizeof(time_t) + sizeof(byte) + sizeof(boolean)`). -/
def ZONE_LOG_ELEM_SIZE : Nat := 6

/-- First byte address of the ring (`EEADDR_ZONE_LOG_BASE + 2*sizeof(int)`). -/
def EEADDR_ZONE_LOG_START : Nat := 104

/-- One past the last byte address of the ring
(`EEADDR_ZONE_LOG_START + ZONE_LOG_LENGTH * ZONE_LOG_ELEM_SIZE`). -/
def EEADDR_ZONE_LOG_END : Nat := 254

/-- One log record: local timestamp, zone id, ON/OFF state. -/
structure LogEntry where
  tm : Nat
  zone : Nat
  state : Bool
deriving DecidableEq

/-- Default record used for unwritten EEPROM cells and `getD` defaults. -/
def dummyEntry : LogEntry := ⟨0, 0, false⟩

/-- State of the `ZoneLog` object: `head` (next write address), `tail`
(oldest entry address) and the EEPROM ring contents. -/
structure ZoneLogState where
  head : Nat
  tail : Nat
  mem : Nat → LogEntry

/-- Source `ZoneLog::clear()`: `head = tail = EEADDR_ZONE_LOG_START`; the
ring contents are not touched. -/
def ZoneLog.clear (s : ZoneLogState) : ZoneLogState :=
  ⟨104, 104, s.mem⟩

/-- Source `ZoneLog::add(zone, state)`: write the record at `head`, advance
`head` by one element (wrapping past the end of the ring region), and if
the new `head` collides with `tail`, advance `tail` by one element
(wrapping likewise), evicting the oldest entry.  The record's timestamp
field is `myTZ.toLocal(now())`; the whole record arrives as `e`. -/
def ZoneLog.add (e : LogEntry) (s : ZoneLogState) : ZoneLogState :=
  let mem := fun a => if a = s.head then e else s.mem a
  let head1 := s.head + 6
  let head2 := if 254 ≤ head1 then 104 else head1
  let tail2 :=
    if head2 = s.tail then
      let t1 := head2 + 6
      if 254 ≤ t1 then 104 else t1
    else s.tail
  ⟨head2, tail2, mem⟩

/-- One backward step of the `dumpHTML` cursor:
`addr -= ZONE_LOG_ELEM_SIZE; if (addr < EEADDR_ZONE_LOG_START)
addr = EEADDR_ZONE_LOG_END - ZONE_LOG_ELEM_SIZE;`. -/
def prevAddr (a : Nat) : Nat :=
  let a1 := a - 6
  if a1 < 104 then 254 - 6 else a1

/-- The `while (addr != tail)` loop of `ZoneLog::dumpHTML`, yielding the
records it renders, newest first.  The source loop is unbounded; the fuel
argument is the iteration budget, and 25 iterations are shown below to
suffice for every state reachable from `clear`. -/
def dumpLoop : Nat → Nat → ZoneLogState → List LogEntry
  | 0, _, _ => []
  | f + 1, addr, s =>
    if addr = s.tail then []
    else
      let addr1 := prevAddr addr
      s.mem addr1 :: dumpLoop f addr1 s

/-- Source `ZoneLog::dumpHTML`: reverse enumeration of the log from `head`
back to `tail` (the HTML wrapping is presentation and is dropped). -/
def ZoneLog.dumpHTML (s : ZoneLogState) : List LogEntry :=
  dumpLoop 25 s.head s

/-- Execute a sequence of `add` calls, oldest first. -/
def runAdds (l : List LogEntry) (s : ZoneLogState) : ZoneLogState :=
  l.foldl (fun st e => ZoneLog.add e st) s

/-- Byte address of ring slot `j % 25`. -/
def addrOf (j : Nat) : Nat := 104 + 6 * (j % 25)

/-- Abstraction relation: after the entries of `l` (oldest first) have been
added to a cleared log, `head` sits at slot `l.length % 25`, `tail` is at
the slot holding the oldest retained entry, and the most recent
`min l.length 24` entries are stored at the slots walking backward from
`head`. -/
def LogRepr (l : List LogEntry) (s : ZoneLogState) : Prop :=
  s.head = addrOf l.length ∧
  s.tail = (if l.length < 25 then 104 else addrOf (l.length + 1)) ∧
  ∀ i, i < min l.length 24 →
    s.mem (addrOf (l.length - 1 - i)) = l.reverse.getD i dummyEntry

theorem addrOf_eq_iff (a b : Nat) : addrOf a = addrOf b ↔ a % 25 = b % 25 := by
  unfold addrOf
  omega

theorem addrOf_congr (a b : Nat) (h : a % 25 = b % 25) : addrOf a = addrOf b :=
  (addrOf_eq_iff a b).mpr h

theorem addrOf_succ_wrap (n : Nat) :
    (if 254 ≤ addrOf n + 6 then 104 else addrOf n + 6) = addrOf (n + 1) := by
  unfold addrOf
  split <;> omega

theorem prevAddr_addrOf (j : Nat) : prevAddr (addrOf (j + 1)) = addrOf j := by
  simp only [prevAddr, addrOf]
  split_ifs <;> omega

theorem logRepr_clear (s : ZoneLogState) : LogRepr [] (ZoneLog.clear s) := by
  refine ⟨rfl, rfl, ?_⟩
  intro i hi
  simp at hi

theorem logRepr_add (l : List LogEntry) (e : LogEntry) (s : ZoneLogState)
    (h : LogRepr l s) : LogRepr (l ++ [e]) (ZoneLog.add e s) := by
  obtain ⟨hh, ht, hm⟩ := h
  refine ⟨?_, ?_, ?_⟩
  · simp only [ZoneLog.add, List.length_append, List.length_cons, List.length_nil]
    rw [hh, addrOf_succ_wrap]
  · simp only [ZoneLog.add, List.length_append, List.length_cons, List.length_nil]
    rw [hh, addrOf_succ_wrap, ht]
    unfold addrOf
    split_ifs <;> omega
  · simp only [ZoneLog.add, List.length_append, List.length_cons, List.length_nil,
      List.reverse_append, List.reverse_cons, List.reverse_nil, List.nil_append,
      List.cons_append, List.singleton_append]
    intro i hi
    cases i with
    | zero =>
      have harl : l.length + 1 - 1 - 0 = l.length := by omega
      rw [harl, ← hh, if_pos rfl]
      rfl
    | succ j =>
      have hj1 : j + 1 ≤ l.length := by omega
      have hj2 : j + 1 ≤ 23 := by omega
      have hne : addrOf (l.length + 1 - 1 - (j + 1)) ≠ s.head := by
        rw [hh, Ne, addrOf_eq_iff]
        omega
      rw [if_neg hne]
      have harl : l.length + 1 - 1 - (j + 1) = l.length - 1 - j := by omega
      rw [harl]
      have := hm j (by omega)
      rw [this]
      rfl

theorem getD_take (xs : List LogEntry) (m i : Nat) (h : i < m) :
    (xs.take m).getD i dummyEntry = xs.getD i dummyEntry := by
  induction xs generalizing m i with
  | nil => simp
  | cons x xs ih =>
    cases m with
    | zero => omega
    | succ m =>
      cases i with
      | zero => simp
      | succ i => simpa using ih m i (by omega)

theorem dumpLoop_spec (k : Nat) (hk : k ≤ 24) :
    ∀ fuel : Nat, k ≤ fuel →
    ∀ (s : ZoneLogState) (b : Nat) (L : List LogEntry),
      s.tail = addrOf b →
      L.length = k →
      (∀ i, i < k → s.mem (addrOf (b + (k - 1 - i))) = L.getD i dummyEntry) →
      dumpLoop fuel (addrOf (b + k)) s = L := by
  induction k with
  | zero =>
    intro fuel _ s b L ht hlen _
    have hL : L = [] := List.length_eq_zero.mp hlen
    subst hL
    cases fuel with
    | zero => rfl
    | succ f =>
      simp [dumpLoop, ht]
  | succ k ih =>
    intro fuel hfuel s b L ht hlen hmem
    cases fuel with
    | zero => omega
    | succ f =>
      obtain ⟨a, L', rfl⟩ : ∃ a L', L = a :: L' := by
        cases L with
        | nil => simp at hlen
        | cons a L' => exact ⟨a, L', rfl⟩
      have hne : addrOf (b + (k + 1)) ≠ s.tail := by
        rw [ht, Ne, addrOf_eq_iff]
        omega
      have hprev : prevAddr (addrOf (b + (k + 1))) = addrOf (b + k) := by
        have harg : b + (k + 1) = (b + k) + 1 := by omega
        rw [harg, prevAddr_addrOf]
      rw [dumpLoop, if_neg hne]
      simp only [hprev]
      have hhead : s.mem (addrOf (b + k)) = a := by
        have h0 := hmem 0 (by omega)
        have harg : b + (k + 1 - 1 - 0) = b + k := by omega
        rw [harg] at h0
        simpa using h0
      rw [hhead]
      congr 1
      apply ih (by omega) f (by omega) s b L' ht (by simpa using hlen)
      intro i hi
      have h1 := hmem (i + 1) (by omega)
      have harg : b + (k + 1 - 1 - (i + 1)) = b + (k - 1 - i) := by omega
      rw [harg] at h1
      simpa using h1

theorem dump_of_logRepr (l : List LogEntry) (s : ZoneLogState)
    (h : LogRepr l s) : ZoneLog.dumpHTML s = l.reverse.take 24 := by
  obtain ⟨hh, ht, hm⟩ := h
  by_cases hn : l.length < 25
  · have hstart : ZoneLog.dumpHTML s = dumpLoop 25 (addrOf (0 + l.length)) s := by
      rw [ZoneLog.dumpHTML, hh, Nat.zero_add]
    rw [hstart]
    apply dumpLoop_spec l.length (by omega) 25 (by omega) s 0 _ ?_ ?_ ?_
    · rw [ht, if_pos hn]
      rfl
    · rw [List.length_take, List.length_reverse]
      omega
    · intro i hi
      rw [Nat.zero_add, getD_take _ _ _ (by omega)]
      exact hm i (by omega)
  · have hstart : ZoneLog.dumpHTML s = dumpLoop 25 (addrOf ((l.length + 1) + 24)) s := by
      rw [ZoneLog.dumpHTML, hh]
      congr 1
      apply addrOf_congr
      omega
    rw [hstart]
    apply dumpLoop_spec 24 (by omega) 25 (by omega) s (l.length + 1) _ ?_ ?_ ?_
    · rw [ht, if_neg hn]
    · rw [List.length_take, List.length_reverse]
      omega
    · intro i hi
      rw [getD_take _ _ _ (by omega)]
      have haddr : addrOf (l.length + 1 + (24 - 1 - i)) = addrOf (l.length - 1 - i) := by
        apply addrOf_congr
        omega
      rw [haddr]
      exact hm i (by omega)

theorem logRepr_runAdds (s0 : ZoneLogState) (l : List LogEntry) :
    LogRepr l (runAdds l (ZoneLog.clear s0)) := by
  induction l using List.reverseRecOn with
  | nil => exact logRepr_clear s0
  | append_singleton l e ih =>
    have hfold : runAdds (l ++ [e]) (ZoneLog.clear s0)
        = ZoneLog.add e (runAdds l (ZoneLog.clear s0)) := by
      simp [runAdds, List.foldl_append]
    rw [hfold]
    exact logRepr_add l e _ ih

/-- C2 counterexample input: 26 distinct entries, oldest first. -/
def l26 : List LogEntry := (List.range 26).map (fun k => ⟨k, 0, true⟩)

/-- A fresh (cleared, zero-filled) log state. -/
def zlInit : ZoneLogState := ⟨104, 104, fun _ => dummyEntry⟩

/-- C2 counterexample: the ring has `C = 2*NUM_ZONES*3 + 1 = 25` slots, but
one slot is a permanent throwaway (`head == tail` must mean empty), so
after 26 > C adds the reverse enumeration yields 24 entries, not the 25
the claim asserts. -/
theorem c2_counterexample :
    (ZoneLog.dumpHTML (runAdds l26 zlInit)).length = 24 ∧
    ZoneLog.dumpHTML (runAdds l26 zlInit) ≠ l26.reverse.take 25 := by
  constructor
  · decide
  · decide

/-- C2 amended: for every sequence of `add` calls to a cleared log (in
particular any N exceeding the 25-slot capacity), reverse enumeration
yields exactly the most recent `min N (C - 1) = min N 24` entries, newest
first (one of the C = 25 slots is a throwaway, so at most 24 entries are
retained); after a subsequent `clear`, reverse enumeration yields zero
entries. -/
theorem c2_ring_buffer (s0 : ZoneLogState) (l : List LogEntry) :
    ZoneLog.dumpHTML (runAdds l (ZoneLog.clear s0)) = l.reverse.take 24 ∧
    ZoneLog.dumpHTML (ZoneLog.clear (runAdds l (ZoneLog.clear s0))) = [] := by
  constructor
  · exact dump_of_logRepr l _ (logRepr_runAdds s0 l)
  · rfl
